import Mathlib

/-!
A shallow embedding of reprotest's variation pipeline and comparison
orchestrator (reprotest/__init__.py), with proofs of behavioural claims.
Environments are association lists with Python-dict update semantics,
the pipeline is modelled as a trace of external events driven by an
oracle for subprocess outcomes, and an explicit reference store models
the aliasing structure of the two environment copies.
-/

/-- Environment mappings (a Python dict from str to str), as association lists. -/
abbrev Env := List (String × String)

/-- Python dict lookup: the first binding for the key wins. -/
def envGet : Env → String → Option String
  | [], _ => none
  | (k', v') :: rest, k => if k' = k then some v' else envGet rest k

/-- Python dict assignment: replace the first binding of the key in place,
or append a fresh binding at the end (insertion order preserved). -/
def envSet : Env → String → String → Env
  | [], k, v => [(k, v)]
  | (k', v') :: rest, k, v =>
      if k' = k then (k, v) :: rest else (k', v') :: envSet rest k v

/-- The build context threaded through the variation pipeline:
the tuple (command1, command2, env1, env2, tree1, tree2) of __init__.py. -/
structure Context where
  command1 : List String
  command2 : List String
  env1 : Env
  env2 : Env
  tree1 : String
  tree2 : String
deriving Repr, DecidableEq

/-- Drop the last path component: pathlib's tree2.parent on our inputs. -/
def parentDir (p : String) : String :=
  String.mk (((p.data.reverse.dropWhile fun c => c ≠ '/').drop 1).reverse)

/-- The mount point tree2.parent/'disorderfs' created by fileordering (line 47). -/
def disorderfsDir (ctx : Context) : String :=
  parentDir ctx.tree2 ++ "/disorderfs"

/-- Variation captures_environment (lines 35-38). -/
def captures_environment (ctx : Context) : Context :=
  { ctx with env2 := envSet ctx.env2 "CAPTURE_ENVIRONMENT" "i_capture_the_environment" }

/-- Variation domain_host (lines 41-43): a placeholder no-op. -/
def domain_host (ctx : Context) : Context := ctx

/-- The pure context effect of fileordering (lines 45-54): tree2 is
redirected to the disorderfs mount point. -/
def fileorderingCtx (ctx : Context) : Context :=
  { ctx with tree2 := disorderfsDir ctx }

/-- Variation home (lines 56-60). -/
def home (ctx : Context) : Context :=
  { ctx with env1 := envSet ctx.env1 "HOME" "/nonexistent/first-build",
             env2 := envSet ctx.env2 "HOME" "/nonexistent/second-build" }

/-- Variation kernel (lines 66-69). -/
def kernel (ctx : Context) : Context :=
  { ctx with command2 := ["linux64", "--uname-2.6"] ++ ctx.command2 }

/-- Variation locales (lines 83-90). -/
def locales (ctx : Context) : Context :=
  { ctx with env2 := envSet (envSet ctx.env2 "LANG" "fr_CH.UTF-8") "LC_ALL" "fr_CH.UTF-8" }

/-- Variation path (lines 99-102): reads env1's PATH (a KeyError, hence
none, if absent) and appends a distinguishing suffix on env2's PATH. -/
def path (ctx : Context) : Option Context :=
  match envGet ctx.env1 "PATH" with
  | none => none
  | some p => some { ctx with env2 := envSet ctx.env2 "PATH" (p ++ "/i_capture_the_path") }

/-- Variation shell (lines 106-108): a no-op. -/
def shell (ctx : Context) : Context := ctx

/-- Variation timezone (lines 110-117). -/
def timezone (ctx : Context) : Context :=
  { ctx with env1 := envSet ctx.env1 "TZ" "GMT+12",
             env2 := envSet ctx.env2 "TZ" "GMT-14" }

/-- Variation umask (lines 119-122). -/
def umask (ctx : Context) : Context :=
  { ctx with command2 := ["umask", "0002;"] ++ ctx.command2 }

/-- Variation user_group (lines 125-127): a no-op. -/
def user_group (ctx : Context) : Context := ctx

/-- The registry order of VARIATIONS (lines 129-137). -/
def VARIATIONS : List String :=
  ["captures_environment", "domain_host", "fileordering", "home", "kernel",
   "locales", "path", "shell", "timezone", "umask", "user_group"]

/-- main's order restoration (line 277): keep registry order, keep only
the selected names. -/
def resolveOrder (sel : List String) : List String :=
  VARIATIONS.filter fun v => v ∈ sel

/-- The pure context effect of the named variation (the successful case);
unknown names leave the context untouched. -/
def applyPure (name : String) (ctx : Context) : Context :=
  if name = "captures_environment" then captures_environment ctx
  else if name = "domain_host" then domain_host ctx
  else if name = "fileordering" then fileorderingCtx ctx
  else if name = "home" then home ctx
  else if name = "kernel" then kernel ctx
  else if name = "locales" then locales ctx
  else if name = "path" then (path ctx).getD ctx
  else if name = "shell" then shell ctx
  else if name = "timezone" then timezone ctx
  else if name = "umask" then umask ctx
  else if name = "user_group" then user_group ctx
  else ctx

/-- Fold of the pure variation effects in list order. -/
def pipePure (names : List String) (ctx : Context) : Context :=
  names.foldl (fun c n => applyPure n c) ctx

/-- Observable external actions of one check run. -/
inductive Event where
  | copyTree (src dst : String)
  | mkdir (p : String)
  | mount (src mp : String)
  | unmount (mp : String)
  | enter (name : String)
  | exitScope (name : String)
  | build (side : Nat)
  | diff (a b : String)
deriving Repr, DecidableEq

/-- Outcomes of the run's external subprocesses and filesystem checks. -/
structure Oracle where
  mountOk : Bool
  unmountOk : Bool
  build1Exit : Nat
  build2Exit : Nat
  artifact1Exists : Bool
  artifact2Exists : Bool
  diffExit : Nat

/-- A pending scope exit registered with the ExitStack: the variation's
name, the events its cleanup emits, and whether the cleanup raises. -/
structure Cleanup where
  name : String
  events : List Event
  raises : Bool

/-- Entering one variation's scope either succeeds (new context, entry
events, pending cleanup) or raises after emitting some events. -/
inductive EnterResult where
  | ok (ctx : Context) (events : List Event) (cleanup : Cleanup)
  | raised (events : List Event)

/-- Entering VARIATIONS[name](...) (check, line 166): an unknown name
raises KeyError at the registry lookup; fileordering mounts disorderfs
(lines 45-54) and registers the fusermount cleanup; path raises KeyError
when env1 lacks PATH; every other known variation transforms the context. -/
def enterVariation (o : Oracle) (name : String) (ctx : Context) : EnterResult :=
  if name = "fileordering" then
    if o.mountOk then
      EnterResult.ok (fileorderingCtx ctx)
        [Event.mkdir (disorderfsDir ctx), Event.mount ctx.tree2 (disorderfsDir ctx),
         Event.enter name]
        ⟨name, [Event.unmount (disorderfsDir ctx)], !o.unmountOk⟩
    else
      EnterResult.raised
        [Event.mkdir (disorderfsDir ctx), Event.mount ctx.tree2 (disorderfsDir ctx)]
  else if name = "path" then
    match path ctx with
    | some c => EnterResult.ok c [Event.enter name] ⟨name, [], false⟩
    | none => EnterResult.raised []
  else if name ∈ VARIATIONS then
    EnterResult.ok (applyPure name ctx) [Event.enter name] ⟨name, [], false⟩
  else
    EnterResult.raised []

/-- The ExitStack loop (lines 163-166): enter each scope in order; on a
raise stop, keeping the already-registered cleanups (innermost first). -/
def enterAll (o : Oracle) : List String → Context → List Event × Option Context × List Cleanup
  | [], ctx => ([], some ctx, [])
  | n :: rest, ctx =>
    match enterVariation o n ctx with
    | EnterResult.raised evs => (evs, none, [])
    | EnterResult.ok ctx' evs cl =>
        let r := enterAll o rest ctx'
        (evs ++ r.1, r.2.1, r.2.2 ++ [cl])

/-- Unwinding the ExitStack: run every pending cleanup, innermost first,
recording whether any cleanup raised. -/
def runCleanups : List Cleanup → List Event × Bool
  | [] => ([], false)
  | cl :: rest =>
      let r := runCleanups rest
      (cl.events ++ [Event.exitScope cl.name] ++ r.1, cl.raises || r.2)

/-- The two build calls (lines 170-177): build 1 always runs; build 2 runs
only when build 1's command exits zero and its artifact exists. -/
def buildPhase (o : Oracle) : List Event :=
  if o.build1Exit == 0 && o.artifact1Exists then [Event.build 1, Event.build 2]
  else [Event.build 1]

/-- Both builds exited zero and both artifacts exist afterwards. -/
def buildsOk (o : Oracle) : Bool :=
  (o.build1Exit == 0) && o.artifact1Exists && (o.build2Exit == 0) && o.artifact2Exists

/-- The temporary directory created by check (line 152), abstracted. -/
def tempDir : String := "$TEMP"

/-- The initial build context (check, lines 153-158): identical commands,
two equal copies of the ambient environment, two fresh tree copies. -/
def initialContext (ambient : Env) (build_command : List String) : Context :=
  ⟨build_command, build_command, ambient, ambient,
   tempDir ++ "/tree1", tempDir ++ "/tree2"⟩

/-- The whole check operation (lines 151-181) as a trace of external
events plus the process exit status: copy the two trees, enter every
selected variation scope, run the two builds, unwind the scopes, and
either exit 2 on any raise or exit with diffoscope's status. -/
def runCheck (o : Oracle) (ambient : Env) (build_command : List String)
    (artifact_name source_root : String) (variations : List String) :
    List Event × Nat :=
  let setup := [Event.copyTree source_root (tempDir ++ "/tree1"),
                Event.copyTree source_root (tempDir ++ "/tree2")]
  let p := enterAll o variations (initialContext ambient build_command)
  let body := match p.2.1 with
    | none => ([] : List Event)
    | some _ => buildPhase o
  let u := runCleanups p.2.2
  let success := p.2.1.isSome && buildsOk o && !u.2
  (setup ++ p.1 ++ body ++ u.1 ++
     (if success then
        [Event.diff (tempDir ++ "/artifact1") (tempDir ++ "/artifact2")]
      else []),
   if success then o.diffExit else 2)

/-- Extract an entered scope's name. -/
def enterName? : Event → Option String
  | Event.enter n => some n
  | _ => none

/-- Extract an exited scope's name. -/
def exitName? : Event → Option String
  | Event.exitScope n => some n
  | _ => none

/-- Names of scopes entered, in trace order. -/
def enterNames (t : List Event) : List String := t.filterMap enterName?

/-- Names of scopes exited, in trace order. -/
def exitNames (t : List Event) : List String := t.filterMap exitName?

/-- Recognize a disorderfs mount invocation. -/
def isMountEv : Event → Bool
  | Event.mount _ _ => true
  | _ => false

/-- Recognize a fusermount unmount invocation. -/
def isUnmountEv : Event → Bool
  | Event.unmount _ => true
  | _ => false

/-- Recognize a build invocation. -/
def isBuildEv : Event → Bool
  | Event.build _ => true
  | _ => false

/-- Recognize a diffoscope invocation. -/
def isDiffEv : Event → Bool
  | Event.diff _ _ => true
  | _ => false

/-- Recognize a source-tree copy. -/
def isCopyEv : Event → Bool
  | Event.copyTree _ _ => true
  | _ => false

/-- Number of mount invocations in a trace. -/
def mountCount (t : List Event) : Nat := t.countP isMountEv

/-- Number of unmount invocations in a trace. -/
def unmountCount (t : List Event) : Nat := t.countP isUnmountEv

/-- Number of build invocations in a trace. -/
def buildCount (t : List Event) : Nat := t.countP isBuildEv

/-- Number of diffoscope invocations in a trace. -/
def diffCount (t : List Event) : Nat := t.countP isDiffEv

/-- Number of source-tree copies in a trace. -/
def copyCount (t : List Event) : Nat := t.countP isCopyEv

/-- Total unmount invocations pending in a cleanup stack. -/
def unmountSum (cls : List Cleanup) : Nat :=
  (cls.map fun cl => unmountCount cl.events).sum

/-- A reference to one of the three environment dict objects alive during
check: the ambient os.environ, the copy env1, and the copy env2. -/
inductive ERef where
  | osref
  | r1
  | r2
deriving Repr, DecidableEq

/-- The heap of environment dict objects during one check run. -/
structure EStore where
  osenv : Env
  c1 : Env
  c2 : Env
deriving Repr, DecidableEq

/-- Read the dict a reference points to. -/
def storeGet (s : EStore) : ERef → Env
  | ERef.osref => s.osenv
  | ERef.r1 => s.c1
  | ERef.r2 => s.c2

/-- Replace the dict a reference points to. -/
def storeSet (s : EStore) : ERef → Env → EStore
  | ERef.osref, e => { s with osenv := e }
  | ERef.r1, e => { s with c1 := e }
  | ERef.r2, e => { s with c2 := e }

/-- Assign one key in the dict a reference points to. -/
def storeWrite (s : EStore) (r : ERef) (k v : String) : EStore :=
  storeSet s r (envSet (storeGet s r) k v)

/-- A build context whose environment slots are references to dict
objects, reflecting the aliasing structure of the Python tuple. -/
structure RefContext where
  command1 : List String
  command2 : List String
  env1 : ERef
  env2 : ERef
  tree1 : String
  tree2 : String
deriving Repr, DecidableEq

/-- check's setup (lines 153-158) with aliasing made explicit: env1 is a
fresh copy of os.environ's contents and env2 a fresh copy of env1's, so
the three references are distinct objects with equal contents. -/
def checkSetup (ambient : Env) (build_command : List String) : EStore × RefContext :=
  (⟨ambient, ambient, ambient⟩,
   ⟨build_command, build_command, ERef.r1, ERef.r2,
    tempDir ++ "/tree1", tempDir ++ "/tree2"⟩)

/-- One variation applied in reference semantics: environment mutations go
through the context's env1/env2 references into the store; path raises
(KeyError) when env1's referent lacks PATH; unknown names raise too. -/
def refApply (name : String) (s : EStore) (ctx : RefContext) : Option (EStore × RefContext) :=
  if name = "captures_environment" then
    some (storeWrite s ctx.env2 "CAPTURE_ENVIRONMENT" "i_capture_the_environment", ctx)
  else if name = "domain_host" then some (s, ctx)
  else if name = "fileordering" then
    some (s, { ctx with tree2 := parentDir ctx.tree2 ++ "/disorderfs" })
  else if name = "home" then
    some (storeWrite (storeWrite s ctx.env1 "HOME" "/nonexistent/first-build")
            ctx.env2 "HOME" "/nonexistent/second-build", ctx)
  else if name = "kernel" then
    some (s, { ctx with command2 := ["linux64", "--uname-2.6"] ++ ctx.command2 })
  else if name = "locales" then
    some (storeWrite (storeWrite s ctx.env2 "LANG" "fr_CH.UTF-8")
            ctx.env2 "LC_ALL" "fr_CH.UTF-8", ctx)
  else if name = "path" then
    match envGet (storeGet s ctx.env1) "PATH" with
    | some p => some (storeWrite s ctx.env2 "PATH" (p ++ "/i_capture_the_path"), ctx)
    | none => none
  else if name = "shell" then some (s, ctx)
  else if name = "timezone" then
    some (storeWrite (storeWrite s ctx.env1 "TZ" "GMT+12") ctx.env2 "TZ" "GMT-14", ctx)
  else if name = "umask" then
    some (s, { ctx with command2 := ["umask", "0002;"] ++ ctx.command2 })
  else if name = "user_group" then some (s, ctx)
  else none

/-- The variation pipeline in reference semantics. -/
def refPipeline : List String → EStore × RefContext → Option (EStore × RefContext)
  | [], sc => some sc
  | n :: rest, sc => (refApply n sc.1 sc.2).bind (refPipeline rest)

/-- The effect of one variation on the env1 dict alone: home and timezone
write through the env1 reference; nothing else touches it. -/
def env1Effect (name : String) (e : Env) : Env :=
  if name = "home" then envSet e "HOME" "/nonexistent/first-build"
  else if name = "timezone" then envSet e "TZ" "GMT+12"
  else e

/-- Fold of the per-variation env1 effects, in selection order. -/
def env1Fold (sel : List String) (e : Env) : Env :=
  sel.foldl (fun acc n => env1Effect n acc) e

/-- A sample oracle in which every external action succeeds. -/
def oracleHappy : Oracle := ⟨true, true, 0, 0, true, true, 0⟩

/-- A sample oracle in which only the fusermount unmount fails. -/
def oracleUnmountFail : Oracle := ⟨true, false, 0, 0, true, true, 0⟩

/-- A sample ambient environment carrying a PATH binding. -/
def ambSample : Env := [("PATH", "/bin")]

/-- A sample build context whose env1 carries a PATH binding. -/
def ctxSample : Context :=
  ⟨["make"], ["make"], [("PATH", "/bin")], [("PATH", "/bin")], "/w/tree1", "/w/tree2"⟩

/-- A sample build context whose env1 lacks PATH. -/
def ctxNoPath : Context :=
  ⟨["make"], ["make"], [("HOME", "/root")], [("HOME", "/root")], "/w/tree1", "/w/tree2"⟩

/-- Setting a key makes it readable with the written value. -/
theorem envGet_envSet_self (e : Env) (k v : String) :
    envGet (envSet e k v) k = some v := by
  induction e with
  | nil => simp [envSet, envGet]
  | cons p rest ih =>
      obtain ⟨k', v'⟩ := p
      by_cases h : k' = k
      · subst h
        simp [envSet, envGet]
      · simp [envSet, envGet, h, ih]

/-- Setting a key leaves every other key's value unchanged. -/
theorem envGet_envSet_ne (e : Env) (k v k' : String) (h : k' ≠ k) :
    envGet (envSet e k v) k' = envGet e k' := by
  induction e with
  | nil =>
      simp only [envSet, envGet]
      rw [if_neg fun hc => h hc.symm]
  | cons p rest ih =>
      obtain ⟨a, b⟩ := p
      by_cases ha : a = k
      · subst ha
        simp only [envSet, if_pos rfl, envGet]
        rw [if_neg fun hc => h hc.symm, if_neg fun hc => h hc.symm]
      · simp only [envSet, if_neg ha, envGet]
        by_cases hak : a = k'
        · rw [if_pos hak, if_pos hak]
        · rw [if_neg hak, if_neg hak, ih]

/-- Case analysis for entering one variation scope: raised on an unknown
name, raised by path without PATH, raised or entered by fileordering
depending on the mount outcome, and plainly entered by every other known
variation. -/
theorem enterVariation_spec (o : Oracle) (n : String) (ctx : Context) :
    (n ∉ VARIATIONS ∧ enterVariation o n ctx = EnterResult.raised [])
  ∨ (n = "path" ∧ envGet ctx.env1 "PATH" = none ∧
      enterVariation o n ctx = EnterResult.raised [])
  ∨ (n = "fileordering" ∧ o.mountOk = false ∧
      enterVariation o n ctx = EnterResult.raised
        [Event.mkdir (disorderfsDir ctx), Event.mount ctx.tree2 (disorderfsDir ctx)])
  ∨ (n = "fileordering" ∧ o.mountOk = true ∧
      enterVariation o n ctx = EnterResult.ok (applyPure n ctx)
        [Event.mkdir (disorderfsDir ctx), Event.mount ctx.tree2 (disorderfsDir ctx),
         Event.enter n]
        ⟨n, [Event.unmount (disorderfsDir ctx)], !o.unmountOk⟩)
  ∨ (n ∈ VARIATIONS ∧ n ≠ "fileordering" ∧
      enterVariation o n ctx = EnterResult.ok (applyPure n ctx) [Event.enter n] ⟨n, [], false⟩) := by
  by_cases hf : n = "fileordering"
  · subst hf
    cases hm : o.mountOk
    · refine Or.inr (Or.inr (Or.inl ⟨rfl, rfl, ?_⟩))
      simp [enterVariation, hm]
    · refine Or.inr (Or.inr (Or.inr (Or.inl ⟨rfl, rfl, ?_⟩)))
      simp [enterVariation, hm, applyPure]
  · by_cases hp : n = "path"
    · subst hp
      cases hP : envGet ctx.env1 "PATH" with
      | none =>
          refine Or.inr (Or.inl ⟨rfl, rfl, ?_⟩)
          simp [enterVariation, path, hP]
      | some pv =>
          refine Or.inr (Or.inr (Or.inr (Or.inr ⟨by decide, by decide, ?_⟩)))
          simp [enterVariation, path, hP, applyPure]
    · by_cases hv : n ∈ VARIATIONS
      · refine Or.inr (Or.inr (Or.inr (Or.inr ⟨hv, hf, ?_⟩)))
        simp [enterVariation, hf, hp, hv]
      · refine Or.inl ⟨hv, ?_⟩
        simp [enterVariation, hf, hp, hv]

/-- Structural facts about the pipeline entry phase: its trace contains
no scope exits, builds, diffs, unmounts or copies; the pending cleanup
stack lists, innermost first, exactly the scopes entered; cleanup events
are only unmounts; when every mount succeeds the pending unmounts match
the mounts one to one; mounts never exceed the fileordering selections;
and when fusermount succeeds no cleanup raises. -/
theorem enterAll_spec (o : Oracle) (sel : List String) (ctx : Context) :
    exitNames (enterAll o sel ctx).1 = []
  ∧ buildCount (enterAll o sel ctx).1 = 0
  ∧ diffCount (enterAll o sel ctx).1 = 0
  ∧ unmountCount (enterAll o sel ctx).1 = 0
  ∧ copyCount (enterAll o sel ctx).1 = 0
  ∧ (enterAll o sel ctx).2.2.map Cleanup.name = (enterNames (enterAll o sel ctx).1).reverse
  ∧ (∀ cl ∈ (enterAll o sel ctx).2.2,
       enterNames cl.events = [] ∧ exitNames cl.events = [] ∧ buildCount cl.events = 0
       ∧ diffCount cl.events = 0 ∧ mountCount cl.events = 0 ∧ copyCount cl.events = 0)
  ∧ (o.mountOk = true → unmountSum (enterAll o sel ctx).2.2 = mountCount (enterAll o sel ctx).1)
  ∧ mountCount (enterAll o sel ctx).1 ≤ sel.count "fileordering"
  ∧ (o.unmountOk = true → ∀ cl ∈ (enterAll o sel ctx).2.2, cl.raises = false) := by
  induction sel generalizing ctx with
  | nil =>
      simp [enterAll, enterNames, exitNames, buildCount, diffCount, unmountCount, copyCount,
            mountCount, unmountSum]
  | cons n rest ih =>
      rcases enterVariation_spec o n ctx with ⟨hn, hE⟩ | ⟨hn, hP, hE⟩ | ⟨hn, hm, hE⟩ |
        ⟨hn, hm, hE⟩ | ⟨hn, hf, hE⟩
      · simp [enterAll, hE, enterNames, exitNames, buildCount, diffCount, unmountCount,
              copyCount, mountCount, unmountSum]
      · simp [enterAll, hE, enterNames, exitNames, buildCount, diffCount, unmountCount,
              copyCount, mountCount, unmountSum]
      · subst hn
        simp [enterAll, hE, enterNames, exitNames, buildCount, diffCount, unmountCount,
              copyCount, mountCount, unmountSum, List.countP_cons, List.count_cons, hm,
              enterName?, exitName?, isMountEv, isUnmountEv, isBuildEv, isDiffEv, isCopyEv]
      · subst hn
        obtain ⟨ih1, ih2, ih3, ih4, ih5, ih6, ih7, ih8, ih9, ih10⟩ :=
          ih (applyPure "fileordering" ctx)
        simp only [enterAll, hE]
        refine ⟨?_, ?_, ?_, ?_, ?_, ?_, ?_, ?_, ?_, ?_⟩
        · simp [exitNames, List.filterMap_append, exitName?] at ih1 ⊢
          exact ih1
        · simp [buildCount, List.countP_append, List.countP_cons, isBuildEv] at ih2 ⊢
          exact ih2
        · simp [diffCount, List.countP_append, List.countP_cons, isDiffEv] at ih3 ⊢
          exact ih3
        · simp [unmountCount, List.countP_append, List.countP_cons, isUnmountEv] at ih4 ⊢
          exact ih4
        · simp [copyCount, List.countP_append, List.countP_cons, isCopyEv] at ih5 ⊢
          exact ih5
        · simp [enterNames, List.filterMap_append, List.filterMap_cons, enterName?,
                List.map_append] at ih6 ⊢
          exact ih6
        · intro cl hcl
          simp only [List.mem_append, List.mem_singleton] at hcl
          rcases hcl with hcl | hcl
          · exact ih7 cl hcl
          · subst hcl
            simp [enterNames, exitNames, buildCount, diffCount, mountCount, copyCount,
                  List.countP_cons, enterName?, exitName?, isBuildEv, isDiffEv, isMountEv,
                  isCopyEv]
        · intro hmo
          have h8 := ih8 hmo
          simp [unmountSum, List.map_append, List.sum_append, mountCount, unmountCount,
                List.countP_append, List.countP_cons, isMountEv, isUnmountEv] at h8 ⊢
          omega
        · simp [mountCount, List.countP_append, List.countP_cons, isMountEv,
                List.count_cons] at ih9 ⊢
          omega
        · intro hu cl hcl
          simp only [List.mem_append, List.mem_singleton] at hcl
          rcases hcl with hcl | hcl
          · exact ih10 hu cl hcl
          · subst hcl
            simp [hu]
      · obtain ⟨ih1, ih2, ih3, ih4, ih5, ih6, ih7, ih8, ih9, ih10⟩ := ih (applyPure n ctx)
        simp only [enterAll, hE]
        refine ⟨?_, ?_, ?_, ?_, ?_, ?_, ?_, ?_, ?_, ?_⟩
        · simp [exitNames, List.filterMap_append, exitName?] at ih1 ⊢
          exact ih1
        · simp [buildCount, List.countP_append, List.countP_cons, isBuildEv] at ih2 ⊢
          exact ih2
        · simp [diffCount, List.countP_append, List.countP_cons, isDiffEv] at ih3 ⊢
          exact ih3
        · simp [unmountCount, List.countP_append, List.countP_cons, isUnmountEv] at ih4 ⊢
          exact ih4
        · simp [copyCount, List.countP_append, List.countP_cons, isCopyEv] at ih5 ⊢
          exact ih5
        · simp [enterNames, List.filterMap_append, List.filterMap_cons, enterName?,
                List.map_append] at ih6 ⊢
          exact ih6
        · intro cl hcl
          simp only [List.mem_append, List.mem_singleton] at hcl
          rcases hcl with hcl | hcl
          · exact ih7 cl hcl
          · subst hcl
            simp [enterNames, exitNames, buildCount, diffCount, mountCount, copyCount]
        · intro hmo
          simp [unmountSum, List.map_append, mountCount, unmountCount, List.countP_append,
                List.countP_cons, isMountEv, isUnmountEv] at ih8 ⊢
          exact ih8 hmo
        · simp [mountCount, List.countP_append, List.countP_cons, isMountEv,
                List.count_cons, hf] at ih9 ⊢
          omega
        · intro hu cl hcl
          simp only [List.mem_append, List.mem_singleton] at hcl
          rcases hcl with hcl | hcl
          · exact ih10 hu cl hcl
          · subst hcl
            rfl

/-- Scope-exit names distribute over trace concatenation. -/
theorem exitNames_append (a b : List Event) :
    exitNames (a ++ b) = exitNames a ++ exitNames b := by
  simp [exitNames, List.filterMap_append]

/-- Scope-entry names distribute over trace concatenation. -/
theorem enterNames_append (a b : List Event) :
    enterNames (a ++ b) = enterNames a ++ enterNames b := by
  simp [enterNames, List.filterMap_append]

/-- Mount counts add over trace concatenation. -/
theorem mountCount_append (a b : List Event) :
    mountCount (a ++ b) = mountCount a + mountCount b := by
  simp [mountCount, List.countP_append]

/-- Unmount counts add over trace concatenation. -/
theorem unmountCount_append (a b : List Event) :
    unmountCount (a ++ b) = unmountCount a + unmountCount b := by
  simp [unmountCount, List.countP_append]

/-- Build counts add over trace concatenation. -/
theorem buildCount_append (a b : List Event) :
    buildCount (a ++ b) = buildCount a + buildCount b := by
  simp [buildCount, List.countP_append]

/-- Diff counts add over trace concatenation. -/
theorem diffCount_append (a b : List Event) :
    diffCount (a ++ b) = diffCount a + diffCount b := by
  simp [diffCount, List.countP_append]

/-- Copy counts add over trace concatenation. -/
theorem copyCount_append (a b : List Event) :
    copyCount (a ++ b) = copyCount a + copyCount b := by
  simp [copyCount, List.countP_append]

/-- A scope-exit marker at the head of a trace contributes exactly its
name and no mount, unmount, build, diff or copy counts. -/
theorem counts_exitScope (n : String) (t : List Event) :
    exitNames (Event.exitScope n :: t) = n :: exitNames t
  ∧ enterNames (Event.exitScope n :: t) = enterNames t
  ∧ buildCount (Event.exitScope n :: t) = buildCount t
  ∧ diffCount (Event.exitScope n :: t) = diffCount t
  ∧ mountCount (Event.exitScope n :: t) = mountCount t
  ∧ copyCount (Event.exitScope n :: t) = copyCount t
  ∧ unmountCount (Event.exitScope n :: t) = unmountCount t := by
  refine ⟨rfl, rfl, ?_, ?_, ?_, ?_, ?_⟩ <;>
    simp [buildCount, diffCount, mountCount, copyCount, unmountCount, List.countP_cons,
          isBuildEv, isDiffEv, isMountEv, isCopyEv, isUnmountEv]

/-- A tree-copy event at the head of a trace adds one copy and nothing else. -/
theorem counts_copyTree (a b : String) (t : List Event) :
    buildCount (Event.copyTree a b :: t) = buildCount t
  ∧ diffCount (Event.copyTree a b :: t) = diffCount t
  ∧ mountCount (Event.copyTree a b :: t) = mountCount t
  ∧ unmountCount (Event.copyTree a b :: t) = unmountCount t
  ∧ copyCount (Event.copyTree a b :: t) = copyCount t + 1
  ∧ enterNames (Event.copyTree a b :: t) = enterNames t
  ∧ exitNames (Event.copyTree a b :: t) = exitNames t := by
  refine ⟨?_, ?_, ?_, ?_, ?_, rfl, rfl⟩ <;>
    simp [buildCount, diffCount, mountCount, unmountCount, copyCount, List.countP_cons,
          isBuildEv, isDiffEv, isMountEv, isUnmountEv, isCopyEv]

/-- Unwinding a cleanup stack whose pending events are only unmounts
produces, in order, each cleanup's events followed by its scope-exit, so
the exit names are exactly the stack's names and the unmounts are the
stack's pending unmounts. -/
theorem runCleanups_spec (cls : List Cleanup)
    (h : ∀ cl ∈ cls, enterNames cl.events = [] ∧ exitNames cl.events = []
          ∧ buildCount cl.events = 0 ∧ diffCount cl.events = 0
          ∧ mountCount cl.events = 0 ∧ copyCount cl.events = 0) :
    exitNames (runCleanups cls).1 = cls.map Cleanup.name
  ∧ enterNames (runCleanups cls).1 = []
  ∧ buildCount (runCleanups cls).1 = 0
  ∧ diffCount (runCleanups cls).1 = 0
  ∧ mountCount (runCleanups cls).1 = 0
  ∧ copyCount (runCleanups cls).1 = 0
  ∧ unmountCount (runCleanups cls).1 = unmountSum cls := by
  induction cls with
  | nil =>
      exact ⟨rfl, rfl, rfl, rfl, rfl, rfl, rfl⟩
  | cons cl rest ih =>
      obtain ⟨h1, h2, h3, h4, h5, h6⟩ := h cl (by simp)
      obtain ⟨r1, r2, r3, r4, r5, r6, r7⟩ := ih (fun c hc => h c (List.mem_cons_of_mem _ hc))
      obtain ⟨s1, s2, s3, s4, s5, s6, s7⟩ := counts_exitScope cl.name (runCleanups rest).1
      simp only [runCleanups]
      refine ⟨?_, ?_, ?_, ?_, ?_, ?_, ?_⟩
      · simp [exitNames_append, h2, s1, r1]
      · simp [enterNames_append, h1, s2, r2]
      · simp [buildCount_append, h3, s3, r3]
      · simp [diffCount_append, h4, s4, r4]
      · simp [mountCount_append, h5, s5, r5]
      · simp [copyCount_append, h6, s6, r6]
      · simp [unmountCount_append, s7, r7, unmountSum]

/-- No cleanup raises during unwinding when none is flagged to raise. -/
theorem runCleanups_noRaise (cls : List Cleanup)
    (h : ∀ cl ∈ cls, cl.raises = false) : (runCleanups cls).2 = false := by
  induction cls with
  | nil => rfl
  | cons cl rest ih =>
      simp only [runCleanups]
      rw [h cl (by simp), ih (fun c hc => h c (List.mem_cons_of_mem _ hc))]
      rfl

/-- A selection containing a name outside the registry always makes the
pipeline raise: the ExitStack loop never completes. -/
theorem enterAll_unknown (o : Oracle) (sel : List String) (ctx : Context)
    (h : ∃ n ∈ sel, n ∉ VARIATIONS) : (enterAll o sel ctx).2.1 = none := by
  induction sel generalizing ctx with
  | nil => simp at h
  | cons n rest ih =>
      rcases enterVariation_spec o n ctx with ⟨hn, hE⟩ | ⟨hn, hP, hE⟩ | ⟨hn, hm, hE⟩ |
        ⟨hn, hm, hE⟩ | ⟨hn, hf, hE⟩
      · simp [enterAll, hE]
      · simp [enterAll, hE]
      · simp [enterAll, hE]
      · subst hn
        simp only [enterAll, hE]
        apply ih
        rcases h with ⟨m, hm', hmV⟩
        rcases List.mem_cons.mp hm' with rfl | hmr
        · exact absurd (by decide) hmV
        · exact ⟨m, hmr, hmV⟩
      · simp only [enterAll, hE]
        apply ih
        rcases h with ⟨m, hm', hmV⟩
        rcases List.mem_cons.mp hm' with rfl | hmr
        · exact absurd hn hmV
        · exact ⟨m, hmr, hmV⟩

/-- No variation's successful effect disturbs env1's PATH binding. -/
theorem applyPure_env1_PATH (n : String) (ctx : Context) :
    envGet (applyPure n ctx).env1 "PATH" = envGet ctx.env1 "PATH" := by
  unfold applyPure
  by_cases h1 : n = "captures_environment"
  · simp [h1, captures_environment]
  rw [if_neg h1]
  by_cases h2 : n = "domain_host"
  · simp [h2, domain_host]
  rw [if_neg h2]
  by_cases h3 : n = "fileordering"
  · simp [h3, fileorderingCtx]
  rw [if_neg h3]
  by_cases h4 : n = "home"
  · rw [if_pos h4]
    exact envGet_envSet_ne ctx.env1 "HOME" "/nonexistent/first-build" "PATH" (by decide)
  rw [if_neg h4]
  by_cases h5 : n = "kernel"
  · simp [h5, kernel]
  rw [if_neg h5]
  by_cases h6 : n = "locales"
  · simp [h6, locales]
  rw [if_neg h6]
  by_cases h7 : n = "path"
  · rw [if_pos h7]
    cases hP : envGet ctx.env1 "PATH" with
    | none => simp [path, hP]
    | some p => simp [path, hP]
  rw [if_neg h7]
  by_cases h8 : n = "shell"
  · simp [h8, shell]
  rw [if_neg h8]
  by_cases h9 : n = "timezone"
  · rw [if_pos h9]
    exact envGet_envSet_ne ctx.env1 "TZ" "GMT+12" "PATH" (by decide)
  rw [if_neg h9]
  by_cases h10 : n = "umask"
  · simp [h10, umask]
  rw [if_neg h10]
  by_cases h11 : n = "user_group"
  · simp [h11, user_group]
  rw [if_neg h11]

/-- When every selected name is registered, every mount succeeds, and the
initial env1 carries a PATH binding, the ExitStack loop completes and the
final context is the fold of the pure variation effects in list order. -/
theorem enterAll_fold (o : Oracle) (sel : List String) :
    ∀ ctx : Context, (∀ n ∈ sel, n ∈ VARIATIONS) → o.mountOk = true →
    (∃ p, envGet ctx.env1 "PATH" = some p) →
    (enterAll o sel ctx).2.1 = some (pipePure sel ctx) := by
  induction sel with
  | nil =>
      intro ctx _ _ _
      simp [enterAll, pipePure]
  | cons n rest ih =>
      intro ctx hall hm hPATH
      rcases enterVariation_spec o n ctx with ⟨hn, hE⟩ | ⟨hn, hP, hE⟩ | ⟨hn, hmf, hE⟩ |
        ⟨hn, hmf, hE⟩ | ⟨hn, hf, hE⟩
      · exact absurd (hall n (by simp)) hn
      · rcases hPATH with ⟨p, hp⟩
        rw [hP] at hp
        cases hp
      · rw [hm] at hmf
        cases hmf
      · subst hn
        simp only [enterAll, hE]
        rw [show pipePure ("fileordering" :: rest) ctx
              = pipePure rest (applyPure "fileordering" ctx) from rfl]
        refine ih (applyPure "fileordering" ctx) (fun m hmr => hall m (by simp [hmr])) hm ?_
        rcases hPATH with ⟨p, hp⟩
        exact ⟨p, by rw [applyPure_env1_PATH]; exact hp⟩
      · simp only [enterAll, hE]
        rw [show pipePure (n :: rest) ctx = pipePure rest (applyPure n ctx) from rfl]
        refine ih (applyPure n ctx) (fun m hmr => hall m (by simp [hmr])) hm ?_
        rcases hPATH with ⟨p, hp⟩
        exact ⟨p, by rw [applyPure_env1_PATH]; exact hp⟩

/-- The build phase emits only build invocations. -/
theorem buildPhase_facts (o : Oracle) :
    enterNames (buildPhase o) = [] ∧ exitNames (buildPhase o) = []
  ∧ mountCount (buildPhase o) = 0 ∧ unmountCount (buildPhase o) = 0
  ∧ diffCount (buildPhase o) = 0 ∧ copyCount (buildPhase o) = 0 := by
  unfold buildPhase
  split
  · exact ⟨rfl, rfl, rfl, rfl, rfl, rfl⟩
  · exact ⟨rfl, rfl, rfl, rfl, rfl, rfl⟩

/-- The setup phase emits exactly the two tree copies. -/
theorem setup_facts (src : String) :
    enterNames [Event.copyTree src (tempDir ++ "/tree1"),
                Event.copyTree src (tempDir ++ "/tree2")] = []
  ∧ exitNames [Event.copyTree src (tempDir ++ "/tree1"),
               Event.copyTree src (tempDir ++ "/tree2")] = []
  ∧ mountCount [Event.copyTree src (tempDir ++ "/tree1"),
                Event.copyTree src (tempDir ++ "/tree2")] = 0
  ∧ unmountCount [Event.copyTree src (tempDir ++ "/tree1"),
                  Event.copyTree src (tempDir ++ "/tree2")] = 0
  ∧ buildCount [Event.copyTree src (tempDir ++ "/tree1"),
                Event.copyTree src (tempDir ++ "/tree2")] = 0
  ∧ diffCount [Event.copyTree src (tempDir ++ "/tree1"),
               Event.copyTree src (tempDir ++ "/tree2")] = 0
  ∧ copyCount [Event.copyTree src (tempDir ++ "/tree1"),
               Event.copyTree src (tempDir ++ "/tree2")] = 2 :=
  ⟨rfl, rfl, rfl, rfl, rfl, rfl, rfl⟩

/-- Every check trace decomposes into setup copies, pipeline-entry events,
a build-only body, the cleanup unwind, and a diff-only tail. -/
theorem runCheck_parts (o : Oracle) (amb : Env) (cmd : List String) (art src : String)
    (sel : List String) :
    ∃ body tail : List Event,
      (runCheck o amb cmd art src sel).1
        = [Event.copyTree src (tempDir ++ "/tree1"), Event.copyTree src (tempDir ++ "/tree2")]
          ++ (enterAll o sel (initialContext amb cmd)).1 ++ body
          ++ (runCleanups (enterAll o sel (initialContext amb cmd)).2.2).1 ++ tail
      ∧ enterNames body = [] ∧ exitNames body = [] ∧ mountCount body = 0
      ∧ unmountCount body = 0 ∧ diffCount body = 0 ∧ copyCount body = 0
      ∧ enterNames tail = [] ∧ exitNames tail = [] ∧ mountCount tail = 0
      ∧ unmountCount tail = 0 ∧ buildCount tail = 0 ∧ copyCount tail = 0
      ∧ (((enterAll o sel (initialContext amb cmd)).2.1.isSome && buildsOk o
            && !(runCleanups (enterAll o sel (initialContext amb cmd)).2.2).2) = false
          ∧ (runCheck o amb cmd art src sel).2 = 2 ∧ tail = []
        ∨ ((enterAll o sel (initialContext amb cmd)).2.1.isSome && buildsOk o
            && !(runCleanups (enterAll o sel (initialContext amb cmd)).2.2).2) = true
          ∧ (runCheck o amb cmd art src sel).2 = o.diffExit
          ∧ tail = [Event.diff (tempDir ++ "/artifact1") (tempDir ++ "/artifact2")]) := by
  obtain ⟨b1, b2, b3, b4, b5, b6⟩ := buildPhase_facts o
  cases hres : (enterAll o sel (initialContext amb cmd)).2.1 with
  | none =>
      refine ⟨[], [], ?_, rfl, rfl, rfl, rfl, rfl, rfl, rfl, rfl, rfl, rfl, rfl, rfl,
        Or.inl ⟨?_, ?_, rfl⟩⟩
      · simp [runCheck, hres]
      · simp [hres]
      · simp [runCheck, hres]
  | some c =>
      by_cases hok : (buildsOk o
          && !(runCleanups (enterAll o sel (initialContext amb cmd)).2.2).2) = true
      · refine ⟨buildPhase o,
          [Event.diff (tempDir ++ "/artifact1") (tempDir ++ "/artifact2")],
          ?_, b1, b2, b3, b4, b5, b6, rfl, rfl, rfl, rfl, rfl, rfl,
          Or.inr ⟨?_, ?_, rfl⟩⟩
        · simp [runCheck, hres, hok]
        · simp [hres, hok]
        · simp [runCheck, hres, hok]
      · refine ⟨buildPhase o, [], ?_, b1, b2, b3, b4, b5, b6,
          rfl, rfl, rfl, rfl, rfl, rfl, Or.inl ⟨?_, ?_, rfl⟩⟩
        · simp [runCheck, hres, hok]
        · simp [hres, hok]
        · simp [runCheck, hres, hok]

/-- Claim C2: variation scopes are exited in strict reverse order of
entry in every execution, whatever raises downstream; with successful
mounts the fusermount unmount invocations pair one to one with the
disorderfs mount invocations, and a selection listing fileordering once
mounts at most once, so a successful mount is unmounted exactly once. -/
theorem variation_scopes_reverse_exit (o : Oracle) (amb : Env) (cmd : List String)
    (art src : String) (sel : List String) :
    exitNames (runCheck o amb cmd art src sel).1
      = (enterNames (runCheck o amb cmd art src sel).1).reverse
  ∧ (o.mountOk = true →
      unmountCount (runCheck o amb cmd art src sel).1
        = mountCount (runCheck o amb cmd art src sel).1)
  ∧ (sel.count "fileordering" = 1 →
      mountCount (runCheck o amb cmd art src sel).1 ≤ 1) := by
  obtain ⟨a1, a2, a3, a4, a5, a6, a7, a8, a9, a10⟩ :=
    enterAll_spec o sel (initialContext amb cmd)
  obtain ⟨c1, c2, c3, c4, c5, c6, c7⟩ := runCleanups_spec _ a7
  obtain ⟨s1, s2, s3, s4, s5, s6, s7⟩ := setup_facts src
  obtain ⟨body, tail, ht, p1, p2, p3, p4, p5, p6, q1, q2, q3, q4, q5, q6, _⟩ :=
    runCheck_parts o amb cmd art src sel
  rw [ht]
  refine ⟨?_, ?_, ?_⟩
  · rw [exitNames_append, exitNames_append, exitNames_append, exitNames_append,
        enterNames_append, enterNames_append, enterNames_append, enterNames_append,
        s1, s2, a1, p1, p2, q1, q2, c1, c2, a6]
    simp
  · intro hm
    rw [unmountCount_append, unmountCount_append, unmountCount_append, unmountCount_append,
        mountCount_append, mountCount_append, mountCount_append, mountCount_append,
        s3, s4, a4, p3, p4, q3, q4, c5, c7, a8 hm]
  · intro hcount
    rw [mountCount_append, mountCount_append, mountCount_append, mountCount_append,
        s3, p3, q3, c5]
    have := a9
    omega

/-- One reference-semantics variation step never touches the os.environ
cell, changes the env1 cell only by its own env1 effect, and keeps the
context's references fixed. -/
theorem refApply_frame (name : String) (s : EStore) (ctx : RefContext)
    (h1 : ctx.env1 = ERef.r1) (h2 : ctx.env2 = ERef.r2)
    (s2 : EStore) (ctx2 : RefContext)
    (h : refApply name s ctx = some (s2, ctx2)) :
    s2.osenv = s.osenv ∧ s2.c1 = env1Effect name s.c1
    ∧ ctx2.env1 = ERef.r1 ∧ ctx2.env2 = ERef.r2 := by
  unfold refApply at h
  by_cases e1 : name = "captures_environment"
  · rw [if_pos e1, h2] at h
    simp only [Option.some.injEq, Prod.mk.injEq] at h
    obtain ⟨hs, hc⟩ := h
    subst hs
    subst hc
    exact ⟨rfl, by simp [env1Effect, e1, storeWrite, storeGet, storeSet], h1, h2⟩
  rw [if_neg e1] at h
  by_cases e2 : name = "domain_host"
  · rw [if_pos e2] at h
    simp only [Option.some.injEq, Prod.mk.injEq] at h
    obtain ⟨hs, hc⟩ := h
    subst hs
    subst hc
    exact ⟨rfl, by simp [env1Effect, e2], h1, h2⟩
  rw [if_neg e2] at h
  by_cases e3 : name = "fileordering"
  · rw [if_pos e3] at h
    simp only [Option.some.injEq, Prod.mk.injEq] at h
    obtain ⟨hs, hc⟩ := h
    subst hs
    subst hc
    exact ⟨rfl, by simp [env1Effect, e3], h1, h2⟩
  rw [if_neg e3] at h
  by_cases e4 : name = "home"
  · rw [if_pos e4, h1, h2] at h
    simp only [Option.some.injEq, Prod.mk.injEq] at h
    obtain ⟨hs, hc⟩ := h
    subst hs
    subst hc
    exact ⟨rfl, by simp [env1Effect, e4, storeWrite, storeGet, storeSet], h1, h2⟩
  rw [if_neg e4] at h
  by_cases e5 : name = "kernel"
  · rw [if_pos e5] at h
    simp only [Option.some.injEq, Prod.mk.injEq] at h
    obtain ⟨hs, hc⟩ := h
    subst hs
    subst hc
    exact ⟨rfl, by simp [env1Effect, e5], h1, h2⟩
  rw [if_neg e5] at h
  by_cases e6 : name = "locales"
  · rw [if_pos e6, h2] at h
    simp only [Option.some.injEq, Prod.mk.injEq] at h
    obtain ⟨hs, hc⟩ := h
    subst hs
    subst hc
    exact ⟨rfl, by simp [env1Effect, e6, storeWrite, storeGet, storeSet], h1, h2⟩
  rw [if_neg e6] at h
  by_cases e7 : name = "path"
  · rw [if_pos e7] at h
    cases hP : envGet (storeGet s ctx.env1) "PATH" with
    | none =>
        rw [hP] at h
        cases h
    | some p =>
        rw [hP, h2] at h
        simp only [Option.some.injEq, Prod.mk.injEq] at h
        obtain ⟨hs, hc⟩ := h
        subst hs
        subst hc
        exact ⟨rfl, by simp [env1Effect, e7, storeWrite, storeGet, storeSet], h1, h2⟩
  rw [if_neg e7] at h
  by_cases e8 : name = "shell"
  · rw [if_pos e8] at h
    simp only [Option.some.injEq, Prod.mk.injEq] at h
    obtain ⟨hs, hc⟩ := h
    subst hs
    subst hc
    exact ⟨rfl, by simp [env1Effect, e8], h1, h2⟩
  rw [if_neg e8] at h
  by_cases e9 : name = "timezone"
  · rw [if_pos e9, h1, h2] at h
    simp only [Option.some.injEq, Prod.mk.injEq] at h
    obtain ⟨hs, hc⟩ := h
    subst hs
    subst hc
    exact ⟨rfl, by simp [env1Effect, e9, storeWrite, storeGet, storeSet], h1, h2⟩
  rw [if_neg e9] at h
  by_cases e10 : name = "umask"
  · rw [if_pos e10] at h
    simp only [Option.some.injEq, Prod.mk.injEq] at h
    obtain ⟨hs, hc⟩ := h
    subst hs
    subst hc
    exact ⟨rfl, by simp [env1Effect, e10], h1, h2⟩
  rw [if_neg e10] at h
  by_cases e11 : name = "user_group"
  · rw [if_pos e11] at h
    simp only [Option.some.injEq, Prod.mk.injEq] at h
    obtain ⟨hs, hc⟩ := h
    subst hs
    subst hc
    exact ⟨rfl, by simp [env1Effect, e11], h1, h2⟩
  rw [if_neg e11] at h
  cases h

/-- Reference-semantics pipeline runs never modify the os.environ cell,
and the env1 cell evolves by the env1 effects alone, independently of
anything written through the env2 reference. -/
theorem refPipeline_frame (sel : List String) :
    ∀ (s : EStore) (ctx : RefContext), ctx.env1 = ERef.r1 → ctx.env2 = ERef.r2 →
    ∀ s2 ctx2, refPipeline sel (s, ctx) = some (s2, ctx2) →
    s2.osenv = s.osenv ∧ s2.c1 = env1Fold sel s.c1
    ∧ ctx2.env1 = ERef.r1 ∧ ctx2.env2 = ERef.r2 := by
  induction sel with
  | nil =>
      intro s ctx h1 h2 s2 ctx2 h
      simp only [refPipeline, Option.some.injEq, Prod.mk.injEq] at h
      obtain ⟨hs, hc⟩ := h
      subst hs
      subst hc
      exact ⟨rfl, rfl, h1, h2⟩
  | cons n rest ih =>
      intro s ctx h1 h2 s2 ctx2 h
      simp only [refPipeline] at h
      cases hA : refApply n s ctx with
      | none =>
          rw [hA] at h
          cases h
      | some sc' =>
          rw [hA] at h
          obtain ⟨sm, cm⟩ := sc'
          obtain ⟨ho, hc1, he1, he2⟩ := refApply_frame n s ctx h1 h2 sm cm hA
          simp only [Option.bind] at h
          obtain ⟨ho2, hc2, hf1, hf2⟩ := ih sm cm he1 he2 s2 ctx2 h
          refine ⟨ho2.trans ho, ?_, hf1, hf2⟩
          rw [hc2, hc1]
          rfl

/-- Claim C1 (amended): a selection containing an unknown variation name
makes check exit with status 2 before any build is run and before the
diff tool is invoked; the two source-tree copies, however, have already
been made, and scopes entered before the unknown name is reached (such
as a fileordering mount) are entered and then unwound. -/
theorem unknown_variation_fails_before_build (o : Oracle) (amb : Env) (cmd : List String)
    (art src : String) (sel : List String) (h : ∃ n ∈ sel, n ∉ VARIATIONS) :
    (runCheck o amb cmd art src sel).2 = 2
  ∧ buildCount (runCheck o amb cmd art src sel).1 = 0
  ∧ diffCount (runCheck o amb cmd art src sel).1 = 0 := by
  obtain ⟨a1, a2, a3, a4, a5, a6, a7, a8, a9, a10⟩ :=
    enterAll_spec o sel (initialContext amb cmd)
  obtain ⟨c1, c2, c3, c4, c5, c6, c7⟩ := runCleanups_spec _ a7
  obtain ⟨s1, s2, s3, s4, s5, s6, s7⟩ := setup_facts src
  have hres := enterAll_unknown o sel (initialContext amb cmd) h
  refine ⟨?_, ?_, ?_⟩
  · simp [runCheck, hres]
  · simp [runCheck, hres, buildCount_append, counts_copyTree, a2, c3]
  · simp [runCheck, hres, diffCount_append, counts_copyTree, a3, c4]

/-- Claim C1 (counterexample to the original wording): with the selection
[fileordering, bogus], where bogus is not registered, the two tree
copies are still made and the disorderfs mount is still attempted before
the failure: the run exits 2 but the no-copy/no-mount part is false. -/
theorem unknown_variation_counterexample :
    "bogus" ∉ VARIATIONS
  ∧ copyCount (runCheck oracleHappy ambSample ["make"] "a.out" "srcdir"
      ["fileordering", "bogus"]).1 = 2
  ∧ mountCount (runCheck oracleHappy ambSample ["make"] "a.out" "srcdir"
      ["fileordering", "bogus"]).1 = 1
  ∧ (runCheck oracleHappy ambSample ["make"] "a.out" "srcdir" ["fileordering", "bogus"]).2
      = 2 := by
  refine ⟨by decide, rfl, rfl, rfl⟩

/-- Claim C1 witness: a run whose selection holds only an unknown name
exits 2 with no build and no diff invocation. -/
theorem unknown_variation_fails_before_build_witness :
    (runCheck oracleHappy ambSample ["make"] "a.out" "srcdir" ["bogus"]).2 = 2
  ∧ buildCount (runCheck oracleHappy ambSample ["make"] "a.out" "srcdir" ["bogus"]).1 = 0
  ∧ diffCount (runCheck oracleHappy ambSample ["make"] "a.out" "srcdir" ["bogus"]).1 = 0 :=
  unknown_variation_fails_before_build oracleHappy ambSample ["make"] "a.out" "srcdir"
    ["bogus"] ⟨"bogus", by decide, by decide⟩

/-- Claim C2 witness: a concrete fileordering run pairing the mount with
exactly one unmount and exiting scopes in reverse entry order. -/
theorem variation_scopes_reverse_exit_witness :
    exitNames (runCheck oracleHappy ambSample ["make"] "a.out" "srcdir"
        ["fileordering", "umask"]).1
      = (enterNames (runCheck oracleHappy ambSample ["make"] "a.out" "srcdir"
          ["fileordering", "umask"]).1).reverse
  ∧ unmountCount (runCheck oracleHappy ambSample ["make"] "a.out" "srcdir"
        ["fileordering", "umask"]).1
      = mountCount (runCheck oracleHappy ambSample ["make"] "a.out" "srcdir"
          ["fileordering", "umask"]).1
  ∧ mountCount (runCheck oracleHappy ambSample ["make"] "a.out" "srcdir"
        ["fileordering", "umask"]).1 ≤ 1 := by
  have h := variation_scopes_reverse_exit oracleHappy ambSample ["make"] "a.out" "srcdir"
    ["fileordering", "umask"]
  exact ⟨h.1, h.2.1 rfl, h.2.2 rfl⟩

/-- Claim C3: a nonzero build exit on either side, or a missing declared
artifact after a successful build exit, makes check exit with the fixed
status 2 and never invoke the diff tool; the missing-artifact case takes
the same path as the nonzero-exit case. -/
theorem build_failure_exit_2 (o : Oracle) (amb : Env) (cmd : List String)
    (art src : String) (sel : List String)
    (h : o.build1Exit ≠ 0 ∨ o.artifact1Exists = false ∨ o.build2Exit ≠ 0
         ∨ o.artifact2Exists = false) :
    (runCheck o amb cmd art src sel).2 = 2
  ∧ diffCount (runCheck o amb cmd art src sel).1 = 0 := by
  obtain ⟨a1, a2, a3, a4, a5, a6, a7, a8, a9, a10⟩ :=
    enterAll_spec o sel (initialContext amb cmd)
  obtain ⟨c1, c2, c3, c4, c5, c6, c7⟩ := runCleanups_spec _ a7
  obtain ⟨s1, s2, s3, s4, s5, s6, s7⟩ := setup_facts src
  obtain ⟨b1, b2, b3, b4, b5, b6⟩ := buildPhase_facts o
  have hb : buildsOk o = false := by
    unfold buildsOk
    rcases h with h | h | h | h <;> simp [h]
  cases hres : (enterAll o sel (initialContext amb cmd)).2.1 with
  | none =>
      refine ⟨?_, ?_⟩
      · simp [runCheck, hres]
      · simp [runCheck, hres, diffCount_append, counts_copyTree, a3, c4]
  | some c =>
      refine ⟨?_, ?_⟩
      · simp [runCheck, hres, hb]
      · simp [runCheck, hres, hb, diffCount_append, counts_copyTree, a3, c4, b5]

/-- Claim C3 witness: a run whose second build exits 1 exits with 2 and
never reaches the diff tool. -/
theorem build_failure_exit_2_witness :
    (runCheck ⟨true, true, 0, 1, true, true, 0⟩ ambSample ["make"] "a.out" "srcdir"
        ["umask"]).2 = 2
  ∧ diffCount (runCheck ⟨true, true, 0, 1, true, true, 0⟩ ambSample ["make"] "a.out"
        "srcdir" ["umask"]).1 = 0 :=
  build_failure_exit_2 ⟨true, true, 0, 1, true, true, 0⟩ ambSample ["make"] "a.out"
    "srcdir" ["umask"] (Or.inr (Or.inr (Or.inl (by decide))))

/-- Claim C4 (amended): when the pipeline enters fully, both builds exit
zero with their artifacts present, and every scope exit succeeds (in
particular fusermount), check's exit status is exactly diffoscope's exit
status, which is invoked exactly once. -/
theorem diff_status_passthrough (o : Oracle) (amb : Env) (cmd : List String)
    (art src : String) (sel : List String)
    (hpipe : (enterAll o sel (initialContext amb cmd)).2.1.isSome = true)
    (hb1 : o.build1Exit = 0) (ha1 : o.artifact1Exists = true)
    (hb2 : o.build2Exit = 0) (ha2 : o.artifact2Exists = true)
    (hu : o.unmountOk = true) :
    (runCheck o amb cmd art src sel).2 = o.diffExit
  ∧ diffCount (runCheck o amb cmd art src sel).1 = 1 := by
  obtain ⟨a1, a2, a3, a4, a5, a6, a7, a8, a9, a10⟩ :=
    enterAll_spec o sel (initialContext amb cmd)
  obtain ⟨c1, c2, c3, c4, c5, c6, c7⟩ := runCleanups_spec _ a7
  obtain ⟨s1, s2, s3, s4, s5, s6, s7⟩ := setup_facts src
  obtain ⟨b1, b2, b3, b4, b5, b6⟩ := buildPhase_facts o
  have hbok : buildsOk o = true := by simp [buildsOk, hb1, ha1, hb2, ha2]
  have hnr : (runCleanups (enterAll o sel (initialContext amb cmd)).2.2).2 = false :=
    runCleanups_noRaise _ (a10 hu)
  obtain ⟨c, hres⟩ := Option.isSome_iff_exists.mp hpipe
  refine ⟨?_, ?_⟩
  · simp [runCheck, hres, hbok, hnr]
  · simp [runCheck, hres, hbok, hnr, diffCount_append, counts_copyTree, a3, c4, b5]
    rfl

/-- Claim C4 witness: a fully successful kernel-variation run exits with
diffoscope's status and invokes it once. -/
theorem diff_status_passthrough_witness :
    (runCheck oracleHappy ambSample ["make"] "a.out" "srcdir" ["kernel"]).2
      = oracleHappy.diffExit
  ∧ diffCount (runCheck oracleHappy ambSample ["make"] "a.out" "srcdir" ["kernel"]).1
      = 1 :=
  diff_status_passthrough oracleHappy ambSample ["make"] "a.out" "srcdir" ["kernel"]
    rfl rfl rfl rfl rfl rfl

/-- Claim C4 (counterexample to the original wording): with a fileordering
run in which both builds complete and produce their artifacts but the
final fusermount unmount fails, check exits 2 while diffoscope, whose
status would have been 0, is never invoked. -/
theorem diff_passthrough_counterexample :
    oracleUnmountFail.build1Exit = 0 ∧ oracleUnmountFail.build2Exit = 0
  ∧ oracleUnmountFail.artifact1Exists = true ∧ oracleUnmountFail.artifact2Exists = true
  ∧ buildCount (runCheck oracleUnmountFail ambSample ["make"] "a.out" "srcdir"
      ["fileordering"]).1 = 2
  ∧ (runCheck oracleUnmountFail ambSample ["make"] "a.out" "srcdir" ["fileordering"]).2 = 2
  ∧ (runCheck oracleUnmountFail ambSample ["make"] "a.out" "srcdir" ["fileordering"]).2
      ≠ oracleUnmountFail.diffExit
  ∧ diffCount (runCheck oracleUnmountFail ambSample ["make"] "a.out" "srcdir"
      ["fileordering"]).1 = 0 := by
  refine ⟨rfl, rfl, rfl, rfl, rfl, rfl, by decide, rfl⟩

/-- Claim C5: for a selection S of known variation names (with mounts
succeeding and PATH present so the pipeline can produce a context), the
selection is resolved to an ordered list preserving the registry order,
each selected variation appears in it exactly once and each unselected
one not at all, and the pipeline's final context is exactly the fold of
the selected variations' effects in that order. -/
theorem pipeline_applies_selection_once (o : Oracle) (ctx : Context) (S : List String)
    (hS : ∀ n ∈ S, n ∈ VARIATIONS) (hm : o.mountOk = true)
    (hp : ∃ p, envGet ctx.env1 "PATH" = some p) :
    (enterAll o (resolveOrder S) ctx).2.1 = some (pipePure (resolveOrder S) ctx)
  ∧ (resolveOrder S).Sublist VARIATIONS
  ∧ ∀ v, (resolveOrder S).count v = if v ∈ S then 1 else 0 := by
  refine ⟨enterAll_fold o (resolveOrder S) ctx (fun n hn => ?_) hm hp,
    List.filter_sublist VARIATIONS, ?_⟩
  · exact List.mem_of_mem_filter hn
  · intro v
    by_cases hv : v ∈ S
    · rw [if_pos hv]
      have hvV : v ∈ VARIATIONS := hS v hv
      unfold resolveOrder
      rw [List.count_filter (by simp [hv])]
      exact List.count_eq_one_of_mem (by decide) hvV
    · rw [if_neg hv]
      unfold resolveOrder
      rw [List.count_eq_zero]
      intro hvf
      rw [List.mem_filter] at hvf
      exact hv (by simpa using hvf.2)

/-- Claim C5 witness: the selection containing umask and kernel resolves
to registry order and folds both effects, with kernel counted once. -/
theorem pipeline_applies_selection_once_witness :
    (enterAll oracleHappy (resolveOrder ["umask", "kernel"]) ctxSample).2.1
      = some (pipePure (resolveOrder ["umask", "kernel"]) ctxSample)
  ∧ (resolveOrder ["umask", "kernel"]).count "kernel"
      = if "kernel" ∈ ["umask", "kernel"] then 1 else 0 :=
  ⟨(pipeline_applies_selection_once oracleHappy ctxSample ["umask", "kernel"]
      (by decide) rfl ⟨"/bin", rfl⟩).1,
   (pipeline_applies_selection_once oracleHappy ctxSample ["umask", "kernel"]
      (by decide) rfl ⟨"/bin", rfl⟩).2.2 "kernel"⟩

/-- Claim C6: the timezone variation sets TZ to GMT+12 in env1 and to the
opposite-sign offset GMT-14 in env2, leaving both commands and both tree
paths unchanged. -/
theorem timezone_opposite_offsets (ctx : Context) :
    envGet (timezone ctx).env1 "TZ" = some "GMT+12"
  ∧ envGet (timezone ctx).env2 "TZ" = some "GMT-14"
  ∧ (timezone ctx).command1 = ctx.command1
  ∧ (timezone ctx).command2 = ctx.command2
  ∧ (timezone ctx).tree1 = ctx.tree1
  ∧ (timezone ctx).tree2 = ctx.tree2 :=
  ⟨envGet_envSet_self ctx.env1 "TZ" "GMT+12",
   envGet_envSet_self ctx.env2 "TZ" "GMT-14", rfl, rfl, rfl, rfl⟩

/-- Claim C7: captures_environment sets exactly the marker variable
CAPTURE_ENVIRONMENT in env2 to its fixed sentinel and changes nothing
else: env1, both commands and both trees are untouched, and every other
env2 key keeps its value. -/
theorem captures_environment_frame (ctx : Context) (k : String) :
    envGet (captures_environment ctx).env2 "CAPTURE_ENVIRONMENT"
      = some "i_capture_the_environment"
  ∧ (k ≠ "CAPTURE_ENVIRONMENT" →
      envGet (captures_environment ctx).env2 k = envGet ctx.env2 k)
  ∧ (captures_environment ctx).env1 = ctx.env1
  ∧ (captures_environment ctx).command1 = ctx.command1
  ∧ (captures_environment ctx).command2 = ctx.command2
  ∧ (captures_environment ctx).tree1 = ctx.tree1
  ∧ (captures_environment ctx).tree2 = ctx.tree2 :=
  ⟨envGet_envSet_self ctx.env2 "CAPTURE_ENVIRONMENT" "i_capture_the_environment",
   fun hk => envGet_envSet_ne ctx.env2 "CAPTURE_ENVIRONMENT" "i_capture_the_environment" k hk,
   rfl, rfl, rfl, rfl, rfl⟩

/-- Claim C7 witness: on a sample context the marker is set and the PATH
binding of env2 is untouched. -/
theorem captures_environment_frame_witness :
    envGet (captures_environment ctxSample).env2 "CAPTURE_ENVIRONMENT"
      = some "i_capture_the_environment"
  ∧ envGet (captures_environment ctxSample).env2 "PATH" = envGet ctxSample.env2 "PATH" :=
  ⟨(captures_environment_frame ctxSample "PATH").1,
   (captures_environment_frame ctxSample "PATH").2.1 (by decide)⟩

/-- Claim C8: the path variation raises (returns none, modelling the
KeyError) exactly when env1 lacks PATH, and otherwise returns the context
with env2's PATH set to env1's PATH with the distinguishing suffix. -/
theorem path_requires_PATH (ctx : Context) :
    (envGet ctx.env1 "PATH" = none → path ctx = none)
  ∧ ∀ p, envGet ctx.env1 "PATH" = some p →
      path ctx = some { ctx with env2 := envSet ctx.env2 "PATH" (p ++ "/i_capture_the_path") } := by
  constructor
  · intro h
    simp [path, h]
  · intro p h
    simp [path, h]

/-- Claim C8 witness: path fails on a PATH-less env1 and succeeds,
appending the suffix, when PATH is bound. -/
theorem path_requires_PATH_witness :
    path ctxNoPath = none
  ∧ path ctxSample = some { ctxSample with
      env2 := envSet ctxSample.env2 "PATH" ("/bin" ++ "/i_capture_the_path") } :=
  ⟨(path_requires_PATH ctxNoPath).1 rfl, (path_requires_PATH ctxSample).2 "/bin" rfl⟩

/-- Claim C9: selecting kernel and umask resolves, in registry order, to
kernel before umask, so umask's shell statement ends up outermost:
command B becomes umask 0002; linux64 --uname-2.6 followed by the
original command, while command A is untouched. -/
theorem kernel_umask_order (o : Oracle) (ctx : Context) :
    resolveOrder ["kernel", "umask"] = ["kernel", "umask"]
  ∧ (enterAll o (resolveOrder ["kernel", "umask"]) ctx).2.1
      = some (pipePure (resolveOrder ["kernel", "umask"]) ctx)
  ∧ (pipePure (resolveOrder ["kernel", "umask"]) ctx).command2
      = ["umask", "0002;", "linux64", "--uname-2.6"] ++ ctx.command2
  ∧ (pipePure (resolveOrder ["kernel", "umask"]) ctx).command1 = ctx.command1 :=
  ⟨by decide, rfl, rfl, rfl⟩

/-- Claim C10: check builds env1 as a copy of the ambient environment and
env2 as a copy of env1, through distinct references; hence after any
pipeline run the ambient cell is untouched and the env1 cell equals the
fold of env1-only effects, independent of everything written through the
env2 reference. -/
theorem env_copies_independent (amb : Env) (cmd : List String) (sel : List String)
    (s2 : EStore) (ctx2 : RefContext)
    (h : refPipeline sel (checkSetup amb cmd) = some (s2, ctx2)) :
    (checkSetup amb cmd).2.env1 ≠ (checkSetup amb cmd).2.env2
  ∧ (checkSetup amb cmd).2.env1 ≠ ERef.osref
  ∧ (checkSetup amb cmd).2.env2 ≠ ERef.osref
  ∧ storeGet (checkSetup amb cmd).1 (checkSetup amb cmd).2.env1 = amb
  ∧ storeGet (checkSetup amb cmd).1 (checkSetup amb cmd).2.env2 = amb
  ∧ s2.osenv = amb
  ∧ s2.c1 = env1Fold sel amb := by
  obtain ⟨ho, hc1, hr1, hr2⟩ :=
    refPipeline_frame sel (checkSetup amb cmd).1 (checkSetup amb cmd).2 rfl rfl s2 ctx2 h
  exact ⟨fun hc => ERef.noConfusion hc, fun hc => ERef.noConfusion hc,
    fun hc => ERef.noConfusion hc, rfl, rfl, ho, hc1⟩

/-- Claim C10 witness: a concrete home-then-marker run leaves the ambient
environment untouched and env1 carrying only its own HOME write. -/
theorem env_copies_independent_witness :
    (checkSetup ambSample ["make"]).2.env1 ≠ (checkSetup ambSample ["make"]).2.env2
  ∧ storeGet (checkSetup ambSample ["make"]).1 (checkSetup ambSample ["make"]).2.env1
      = ambSample := by
  have h := env_copies_independent ambSample ["make"] ["home", "captures_environment"]
    ⟨ambSample, envSet ambSample "HOME" "/nonexistent/first-build",
      envSet (envSet ambSample "HOME" "/nonexistent/second-build")
        "CAPTURE_ENVIRONMENT" "i_capture_the_environment"⟩
    ⟨["make"], ["make"], ERef.r1, ERef.r2, tempDir ++ "/tree1", tempDir ++ "/tree2"⟩
    rfl
  exact ⟨h.1, h.2.2.2.1⟩
